import Mathlib

/-!
Verification development for the FamilySearch image downloader
(`imagecrawl.py`): a shallow embedding of its resumable download engine —
identifier extraction, position-indexed naming, retriable per-item fetch,
the pause-aware orchestrator loop, the manual retry-failed transition and
the archive packager — together with theorems settling the specification's
claims about it.

Modelling conventions:
* Python strings are `String`, raw image bytes are `Bytes := List Nat`.
* Python `dict`s are association lists with Python's insert-or-update
  semantics (`dinsert` keeps the original position of an updated key, as
  CPython dicts do) and key lookup `dget`.
* The network is an oracle: for a single `download_image` call,
  `fetchAttempt : Nat -> Option Bytes` maps the attempt number to `some`
  response bytes when the GET of the image's URL (the base URL with the
  `{IDs}` placeholder replaced by the identifier), the image decode and the
  file save all succeed on that attempt, and to `none` when that attempt
  fails (network error, non-2xx status or decode failure).  The orchestrator
  takes `fetch : Nat -> Nat -> Option Bytes`, the per-pending-item attempt
  oracle.
* The Streamlit pause flag, which the UI may flip between loop iterations,
  is read through `pauseRead : Nat -> Bool` (value observed before item i);
  UI rendering, Google-Drive persistence and `time.sleep` have no effect on
  the tracked state, so sleeps are only counted where a claim mentions them.
-/

namespace ImageCrawl

/-- Raw image bytes (the body of a successful HTTP response). -/
abbrev Bytes := List Nat

/-- One entry of `download_progress["image_data"]`: the output filename and
the raw bytes stored on a successful fetch. -/
structure ImageInfo where
  filename : String
  data : Bytes
deriving DecidableEq

/-- Python dict insert-or-update: an existing key keeps its position and gets
the new value; a new key is appended (CPython insertion order). -/
def dinsert {α : Type} (k : String) (v : α) : List (String × α) → List (String × α)
  | [] => [(k, v)]
  | (k2, v2) :: rest => if k = k2 then (k2, v) :: rest else (k2, v2) :: dinsert k v rest

/-- Python dict lookup (`d.get(k)` / `d[k]` when present). -/
def dget {α : Type} (k : String) : List (String × α) → Option α
  | [] => none
  | (k2, v2) :: rest => if k = k2 then some v2 else dget k rest

/-! ## Identifier extraction (`extract_ids_from_urls`) -/

/-- Substring test, `needle in hay` on Python strings. -/
def containsSeg (needle : List Char) : List Char → Bool
  | [] => needle.isEmpty
  | c :: rest => needle.isPrefixOf (c :: rest) || containsSeg needle rest

/-- Python `needle in hay` for strings. -/
def strContains (hay needle : String) : Bool :=
  containsSeg needle.data hay.data

/-- The search of `re.search(r'3:1:([^/]+)', url)` over the characters of
`url`: at the leftmost position where the literal `3:1:` is followed by at
least one character other than a slash, capture the maximal run of
non-slash characters; otherwise keep scanning from the next position. -/
def idAfterMarker : List Char → Option (List Char)
  | [] => none
  | c :: rest =>
    if c = '3' then
      match rest with
      | ':' :: '1' :: ':' :: tail =>
        let grp := tail.takeWhile (fun d => d != '/')
        if grp.isEmpty then idAfterMarker rest else some grp
      | _ => idAfterMarker rest
    else idAfterMarker rest

/-- The ID portion extracted from one candidate URL (`match.group(1)` of
`re.search(r'3:1:([^/]+)', url)`), `none` when the URL has no match and is
silently dropped. -/
def extract_id_from_url (url : String) : Option String :=
  (idAfterMarker url.data).map (fun cs => String.mk cs)

/-- Parsed JSON values, the result of a successful `json.loads`. -/
inductive Json where
  | str (s : String)
  | num (n : Int)
  | boolean (b : Bool)
  | null
  | arr (items : List Json)
  | obj (fields : List (String × Json))

mutual
/-- The source's `extract_urls_from_dict`: walk the dict in order, collecting
string values containing `'familysearch.org/ark:'`, recursing into dict
values, and scanning list values for dicts and marker strings. -/
def extract_urls_from_dict : List (String × Json) → List String
  | [] => []
  | (_, v) :: rest => urlsFromValue v ++ extract_urls_from_dict rest

/-- One dict value inside `extract_urls_from_dict`. -/
def urlsFromValue : Json → List String
  | .str s => if strContains s "familysearch.org/ark:" then [s] else []
  | .obj fields => extract_urls_from_dict fields
  | .arr items => urlsFromInnerList items
  | _ => []

/-- A list inside `extract_urls_from_dict` (also the shape of the top-level
list walk): dict items are recursed into, marker strings collected, and
everything else — including nested lists — skipped. -/
def urlsFromInnerList : List Json → List String
  | [] => []
  | .obj fields :: rest => extract_urls_from_dict fields ++ urlsFromInnerList rest
  | .str s :: rest =>
      (if strContains s "familysearch.org/ark:" then [s] else []) ++ urlsFromInnerList rest
  | _ :: rest => urlsFromInnerList rest
end

/-- `isinstance(data, list) and all(isinstance(item, str) for item in data)`:
`some` the strings when every item is a string. -/
def allStrings : List Json → Option (List String)
  | [] => some []
  | .str s :: rest => (allStrings rest).map (fun l => s :: l)
  | _ :: _ => none

/-- Python `'urls' in data` / `data['urls']` on a parsed JSON object. -/
def lookupKey (k : String) : List (String × Json) → Option Json
  | [] => none
  | (k2, v) :: rest => if k = k2 then some v else lookupKey k rest

/-- Python `for url in urls` over the value found under `'urls'`: a list
yields its items, a string yields its characters (as 1-character strings),
a dict yields its keys, and scalars raise `TypeError`. -/
def iterElems : Json → Except String (List Json)
  | .arr xs => .ok xs
  | .str s => .ok (s.data.map (fun c => Json.str (String.mk [c])))
  | .obj fields => .ok (fields.map (fun p => Json.str p.1))
  | _ => .error "TypeError: object is not iterable"

/-- The `for url in urls: re.search(...)` loop: string candidates contribute
their match (if any) in order; a non-string candidate raises `TypeError`
from `re.search`, discarding the whole call. -/
def searchIds : List Json → Except String (List String)
  | [] => .ok []
  | .str s :: rest =>
      (searchIds rest).map (fun ids =>
        match extract_id_from_url s with
        | some v => v :: ids
        | none => ids)
  | _ :: _ => .error "TypeError: expected string or bytes-like object"

/-- Input of `extract_ids_from_urls` after the `json.loads` attempt:
`parsedJson data` when the raw content parses as JSON, else
`plainText urlMatches`, where `urlMatches` abstracts the list of matches of
the fallback URL regex `re.findall` over the raw text (no claim depends on
the URL pattern itself, only on what the loop does with the matches; an
empty raw input yields `plainText []`). -/
inductive ExtractInput where
  | parsedJson (data : Json)
  | plainText (urlMatches : List String)

/-- The candidate URL list of `extract_ids_from_urls`: a JSON list of
strings is used directly; a JSON object with an `'urls'` key iterates that
value; any other JSON value is walked for marker strings
(`extract_urls_from_dict` for dicts, the inline list walk for lists, and an
empty list for scalars); non-JSON content contributes the regex matches. -/
def candidateUrls : ExtractInput → Except String (List Json)
  | .parsedJson data =>
    match data with
    | .arr items =>
      match allStrings items with
      | some _ => .ok items
      | none => .ok ((urlsFromInnerList items).map Json.str)
    | .obj fields =>
      match lookupKey "urls" fields with
      | some v => iterElems v
      | none => .ok ((extract_urls_from_dict fields).map Json.str)
    | _ => .ok []
  | .plainText ms => .ok (ms.map Json.str)

/-- `extract_ids_from_urls`: candidate URLs, then the ID-search loop.  The
source returns the (possibly empty) list of IDs and raises nothing of its
own; the only escaping errors are the `TypeError`s of the malformed
`'urls'` cases. -/
def extract_ids_from_urls (inp : ExtractInput) : Except String (List String) :=
  (candidateUrls inp).bind searchIds

/-- Modelled from the spec: the spec's `ExtractionError` contract, absent
from the source — extraction fails with an `ExtractionError` exactly when
the input is empty or yields zero identifier matches, and otherwise returns
the ordered identifier sequence. -/
def extract_ids_spec (inp : ExtractInput) : Except String (List String) :=
  match extract_ids_from_urls inp with
  | .ok [] => .error "ExtractionError: no identifiers found in input"
  | r => r

/-! ## Position index (`create_id_position_mapping`) -/

/-- Evaluation of the dict comprehension
`{id_value: i+1 for i, id_value in enumerate(ids)}`: left-to-right
insert-or-update into an initially empty dict. -/
def buildPosMap : List String → Nat → List (String × Nat) → List (String × Nat)
  | [], _, m => m
  | id :: rest, i, m => buildPosMap rest (i + 1) (dinsert id (i + 1) m)

/-- `create_id_position_mapping(ids)`. -/
def create_id_position_mapping (ids : List String) : List (String × Nat) :=
  buildPosMap ids 0 []

/-- Index of the last occurrence of `id` in a list (characterises which
index survives the comprehension's overwrites). -/
def lastIdx (id : String) : List String → Option Nat
  | [] => none
  | x :: rest =>
    match lastIdx id rest with
    | some n => some (n + 1)
    | none => if x = id then some 0 else none

/-! ## Progress record and session state -/

/-- `download_progress["metadata"]`. -/
structure Metadata where
  town_name : String
  date_period : String
  letter_code : String
  total_ids : Nat
deriving DecidableEq

/-- `st.session_state.download_progress`. -/
structure DownloadProgress where
  completed : List (String × String)
  failed : List String
  metadata : Metadata
  id_position_map : List (String × Nat)
  image_data : List (String × ImageInfo)
deriving DecidableEq

/-- The engine-relevant part of `st.session_state`. -/
structure SessionState where
  extracted_ids : List String
  download_progress : DownloadProgress
  download_started : Bool
  download_paused : Bool
  authorization : String
  delay_between_downloads : Nat
deriving DecidableEq

/-- `completed_ids = [item[0] for item in download_progress["completed"]]`. -/
def completed_ids (st : SessionState) : List String :=
  st.download_progress.completed.map Prod.fst

/-- `pending_ids = [id for id in ids if id not in completed_ids]` — note
that identifiers in `failed` are not filtered out. -/
def pending_ids (st : SessionState) : List String :=
  st.extracted_ids.filter (fun id => decide (id ∉ completed_ids st))

/-! ## Fetch worker (`download_image`) -/

/-- `f"{index:03d}"`: zero-pad to (at least) three digits. -/
def pad3 (n : Nat) : String :=
  if n < 10 then "00" ++ toString n
  else if n < 100 then "0" ++ toString n
  else toString n

/-- Result of one `download_image` call: the returned pair
`(success, path)`, the resulting `image_data` dict, and how many times the
inter-attempt `time.sleep(retry_delay)` ran. -/
structure FetchResult where
  success : Bool
  path : Option String
  image_data : List (String × ImageInfo)
  sleeps : Nat
deriving DecidableEq

/-- The `for attempt in range(retry_count)` body of `download_image`:
a successful attempt stores the bytes under `image_id` in `image_data` and
returns `(True, new_path)`; a failed non-final attempt sleeps and retries;
exhaustion returns `(False, None)` with `image_data` untouched. -/
def attemptLoop (fetchAttempt : Nat → Option Bytes) (image_id new_filename new_path : String)
    (image_data : List (String × ImageInfo)) : Nat → Nat → FetchResult
  | _, 0 => ⟨false, none, image_data, 0⟩
  | attempt, remaining + 1 =>
    match fetchAttempt attempt with
    | some content =>
        ⟨true, some new_path, dinsert image_id ⟨new_filename, content⟩ image_data, 0⟩
    | none =>
        if remaining = 0 then ⟨false, none, image_data, 0⟩
        else
          let r := attemptLoop fetchAttempt image_id new_filename new_path image_data
            (attempt + 1) remaining
          ⟨r.success, r.path, r.image_data, r.sleeps + 1⟩

/-- `download_image(image_id, base_url, output_dir, index, town_name,
date_period, letter_code, ...)` with the network behind `fetchAttempt`. -/
def download_image (fetchAttempt : Nat → Option Bytes) (image_id output_dir : String)
    (index : Nat) (town_name date_period letter_code : String)
    (image_data : List (String × ImageInfo)) (retry_count : Nat) : FetchResult :=
  let new_filename :=
    town_name ++ "_" ++ date_period ++ "_" ++ letter_code ++ "_" ++ pad3 index ++ ".jpg"
  let new_path := output_dir ++ "/" ++ new_filename
  attemptLoop fetchAttempt image_id new_filename new_path image_data 0 retry_count

/-- Whether any of the first `rc` attempts starting at `attempt` succeeds. -/
def anySuccessFrom (o : Nat → Option Bytes) : Nat → Nat → Bool
  | _, 0 => false
  | attempt, remaining + 1 => (o attempt).isSome || anySuccessFrom o (attempt + 1) remaining

/-- Whether a fetch with `rc` attempts against oracle `o` succeeds. -/
def fetchSucceeds (o : Nat → Option Bytes) (rc : Nat) : Bool :=
  anySuccessFrom o 0 rc

/-! ## Download orchestrator (`download_images`) -/

/-- Outcome of the orchestrator loop: the final `completed`, `failed` and
`image_data`, the identifiers actually attempted (in order), and whether
the loop exited at a pause check. -/
structure RunResult where
  completed : List (String × String)
  failed : List String
  image_data : List (String × ImageInfo)
  attempted : List String
  paused : Bool
deriving DecidableEq

/-- The `for i, image_id in enumerate(pending_ids)` loop of
`download_images`: before each item the pause flag is read (a `True`
reading persists progress and breaks); otherwise the item's ordinal is
`id_position_map.get(image_id, i+1)`, `download_image` runs with the
default 3 attempts, and `completed`/`failed` are updated accordingly. -/
def downloadLoop (fetch : Nat → Nat → Option Bytes) (pauseRead : Nat → Bool)
    (output_dir town_name date_period letter_code : String)
    (id_position_map : List (String × Nat)) :
    Nat → List String → List (String × String) → List String →
    List (String × ImageInfo) → RunResult
  | _, [], successful, failed, image_data => ⟨successful, failed, image_data, [], false⟩
  | i, image_id :: rest, successful, failed, image_data =>
    if pauseRead i then ⟨successful, failed, image_data, [], true⟩
    else
      let position := (dget image_id id_position_map).getD (i + 1)
      let r := download_image (fetch i) image_id output_dir position
        town_name date_period letter_code image_data 3
      let successful2 :=
        if r.success then successful ++ [(image_id, r.path.getD "")] else successful
      let failed2 := if r.success then failed else failed ++ [image_id]
      let rest_r := downloadLoop fetch pauseRead output_dir town_name date_period letter_code
        id_position_map (i + 1) rest successful2 failed2 r.image_data
      ⟨rest_r.completed, rest_r.failed, rest_r.image_data,
        image_id :: rest_r.attempted, rest_r.paused⟩

/-- `download_images()`: computes `pending_ids`, returns immediately when it
is empty or the session is already paused, and otherwise runs the download
loop, writing the loop's `completed`/`failed`/`image_data` back into the
session and recording whether the run ended paused.  The second component
is the trace of identifiers the run attempted to fetch. -/
def download_images (fetch : Nat → Nat → Option Bytes) (pauseRead : Nat → Bool)
    (output_dir : String) (st : SessionState) : SessionState × List String :=
  let m := st.download_progress.metadata
  let pending := pending_ids st
  if pending.length = 0 then (st, [])
  else if st.download_paused then (st, [])
  else
    let r := downloadLoop fetch pauseRead output_dir m.town_name m.date_period m.letter_code
      st.download_progress.id_position_map 0 pending
      st.download_progress.completed st.download_progress.failed
      st.download_progress.image_data
    ({ st with
        download_progress :=
          { st.download_progress with
              completed := r.completed, failed := r.failed, image_data := r.image_data },
        download_paused := r.paused },
      r.attempted)

/-- Which of the items starting at index `i` fail their (3-attempt) fetch:
the identifiers the loop would append to `failed`, in order. -/
def runFailed (fetch : Nat → Nat → Option Bytes) : Nat → List String → List String
  | _, [] => []
  | i, id :: rest =>
      (if fetchSucceeds (fetch i) 3 then [] else [id]) ++ runFailed fetch (i + 1) rest

/-! ## Retry-failed transition and archive packager -/

/-- `retry_failed_downloads()`: a no-op (plus a warning) when `failed` is
empty, otherwise clears `failed` and saves; it performs no fetch. -/
def retry_failed_downloads (st : SessionState) : SessionState :=
  if st.download_progress.failed = [] then st
  else { st with download_progress := { st.download_progress with failed := [] } }

/-- `create_download_zip(include_completed_only)`: the archive's entries
(name, bytes) in write order.  Only the `include_completed_only=True`
branch writes entries: one per `completed` pair whose identifier is present
in `image_data`, named by the stored filename and holding the stored bytes;
orphans are skipped.  The source's default for the flag is `False`. -/
def create_download_zip (include_completed_only : Bool) (p : DownloadProgress) :
    List (String × Bytes) :=
  if include_completed_only then
    p.completed.foldl (fun acc pr =>
      match dget pr.1 p.image_data with
      | some info => acc ++ [(info.filename, info.data)]
      | none => acc) []
  else []

/-! ## Concrete example sessions used to exercise the engine -/

/-- A session with ten extracted identifiers of which the first five are
completed and the next two failed (the resume scenario of the spec). -/
def resumeState (x1 x2 x3 x4 x5 x6 x7 x8 x9 x10 q1 q2 q3 q4 q5 : String)
    (meta : Metadata) (posmap : List (String × Nat)) (imgd : List (String × ImageInfo))
    (auth : String) (delay : Nat) (started : Bool) : SessionState :=
  { extracted_ids := [x1, x2, x3, x4, x5, x6, x7, x8, x9, x10],
    download_progress :=
      { completed := [(x1, q1), (x2, q2), (x3, q3), (x4, q4), (x5, q5)],
        failed := [x6, x7], metadata := meta, id_position_map := posmap,
        image_data := imgd },
    download_started := started, download_paused := false,
    authorization := auth, delay_between_downloads := delay }

/-- A fresh session whose extracted sequence repeats one identifier. -/
def dupState : SessionState :=
  { extracted_ids := ["X", "X"],
    download_progress :=
      { completed := [], failed := [], metadata := ⟨"t", "d", "l", 2⟩,
        id_position_map := create_id_position_mapping ["X", "X"], image_data := [] },
    download_started := true, download_paused := false,
    authorization := "", delay_between_downloads := 0 }

/-- A fresh session with a single extracted identifier. -/
def singleState : SessionState :=
  { extracted_ids := ["A"],
    download_progress :=
      { completed := [], failed := [], metadata := ⟨"t", "d", "l", 1⟩,
        id_position_map := [("A", 1)], image_data := [] },
    download_started := true, download_paused := false,
    authorization := "", delay_between_downloads := 0 }

/-- A session with one completed identifier (bytes stored) and one failed. -/
def mixedState : SessionState :=
  { extracted_ids := ["A", "B"],
    download_progress :=
      { completed := [("A", "p")], failed := ["B"], metadata := ⟨"t", "d", "l", 2⟩,
        id_position_map := [("A", 1), ("B", 2)], image_data := [("A", ⟨"f", [9]⟩)] },
    download_started := true, download_paused := false,
    authorization := "", delay_between_downloads := 0 }

/-- A session with two failed identifiers and nothing completed. -/
def failedState : SessionState :=
  { extracted_ids := ["A", "B"],
    download_progress :=
      { completed := [], failed := ["A", "B"], metadata := ⟨"t", "d", "l", 2⟩,
        id_position_map := [("A", 1), ("B", 2)], image_data := [] },
    download_started := true, download_paused := false,
    authorization := "", delay_between_downloads := 0 }

/-! ## Dictionary lemmas -/

theorem dget_dinsert {α : Type} (k k2 : String) (v : α) (m : List (String × α)) :
    dget k (dinsert k2 v m) = if k = k2 then some v else dget k m := by
  induction m with
  | nil => simp only [dinsert, dget]
  | cons hd t ih =>
    obtain ⟨k3, v3⟩ := hd
    simp only [dinsert]
    by_cases h1 : k2 = k3
    · subst h1
      simp only [if_pos rfl, dget]
      by_cases h2 : k = k2 <;> simp [h2]
    · simp only [if_neg h1, dget]
      by_cases h2 : k = k3
      · subst h2
        have hk2 : ¬ k = k2 := fun h => h1 h.symm
        simp [hk2]
      · simp [h2, ih]

theorem dget_dinsert_isSome {α : Type} (k k2 : String) (v : α) (m : List (String × α))
    (h : (dget k m).isSome = true) : (dget k (dinsert k2 v m)).isSome = true := by
  rw [dget_dinsert]
  by_cases h2 : k = k2 <;> simp [h2, h]

/-! ## Fetch worker lemmas -/

theorem attemptLoop_success (o : Nat → Option Bytes) (id fn np : String)
    (imgd : List (String × ImageInfo)) :
    ∀ (remaining attempt : Nat),
      (attemptLoop o id fn np imgd attempt remaining).success =
        anySuccessFrom o attempt remaining := by
  intro remaining
  induction remaining with
  | zero => intro attempt; rfl
  | succ r ih =>
    intro attempt
    simp only [attemptLoop, anySuccessFrom]
    cases h : o attempt with
    | some c => simp
    | none =>
      by_cases hr : r = 0
      · subst hr; simp [anySuccessFrom]
      · simp [hr, ih (attempt + 1)]

theorem attemptLoop_cases (o : Nat → Option Bytes) (id fn np : String)
    (imgd : List (String × ImageInfo)) :
    ∀ (remaining attempt : Nat),
      ((attemptLoop o id fn np imgd attempt remaining).success = true →
        (attemptLoop o id fn np imgd attempt remaining).path = some np ∧
        ∃ c, (attemptLoop o id fn np imgd attempt remaining).image_data =
          dinsert id ⟨fn, c⟩ imgd)
      ∧ ((attemptLoop o id fn np imgd attempt remaining).success = false →
        (attemptLoop o id fn np imgd attempt remaining).path = none ∧
        (attemptLoop o id fn np imgd attempt remaining).image_data = imgd) := by
  intro remaining
  induction remaining with
  | zero =>
    intro attempt
    refine ⟨fun h => by simp [attemptLoop] at h, fun _ => ⟨rfl, rfl⟩⟩
  | succ r ih =>
    intro attempt
    simp only [attemptLoop]
    cases h : o attempt with
    | some c =>
      exact ⟨fun _ => ⟨rfl, c, rfl⟩, fun hf => by simp at hf⟩
    | none =>
      by_cases hr : r = 0
      · subst hr
        exact ⟨fun hs => by simp at hs, fun _ => ⟨rfl, rfl⟩⟩
      · simp only [if_neg hr]
        exact ih (attempt + 1)

theorem anySuccessFrom_iff (o : Nat → Option Bytes) :
    ∀ (remaining attempt : Nat),
      anySuccessFrom o attempt remaining = true ↔
        ∃ k, k < remaining ∧ (o (attempt + k)).isSome = true := by
  intro remaining
  induction remaining with
  | zero => intro a; simp [anySuccessFrom]
  | succ r ih =>
    intro a
    simp only [anySuccessFrom, Bool.or_eq_true, ih (a + 1)]
    constructor
    · rintro (h | ⟨k, hk, hko⟩)
      · exact ⟨0, Nat.succ_pos r, by simpa using h⟩
      · refine ⟨k + 1, by omega, ?_⟩
        have : a + (k + 1) = a + 1 + k := by omega
        rw [this]; exact hko
    · rintro ⟨k, hk, hko⟩
      cases k with
      | zero => left; simpa using hko
      | succ k2 =>
        right
        refine ⟨k2, by omega, ?_⟩
        have : a + 1 + k2 = a + (k2 + 1) := by omega
        rw [this]; exact hko

theorem download_image_success (o : Nat → Option Bytes) (image_id output_dir : String)
    (index : Nat) (t d l : String) (imgd : List (String × ImageInfo)) (rc : Nat) :
    (download_image o image_id output_dir index t d l imgd rc).success =
      fetchSucceeds o rc := by
  simp only [download_image, fetchSucceeds]
  exact attemptLoop_success o image_id _ _ imgd rc 0

/-- C6: retry semantics — a `download_image` with the default
`retry_count = 3` whose attempts 1 and 2 fail and whose attempt 3 succeeds
returns success with the local path, stores the bytes under the identifier,
and runs the inter-attempt sleep exactly twice. -/
theorem download_image_retry_two_sleeps
    (o : Nat → Option Bytes) (image_id output_dir : String) (index : Nat)
    (t d l : String) (imgd : List (String × ImageInfo)) (content : Bytes)
    (h0 : o 0 = none) (h1 : o 1 = none) (h2 : o 2 = some content) :
    download_image o image_id output_dir index t d l imgd 3 =
      ⟨true,
       some (output_dir ++ "/" ++ (t ++ "_" ++ d ++ "_" ++ l ++ "_" ++ pad3 index ++ ".jpg")),
       dinsert image_id ⟨t ++ "_" ++ d ++ "_" ++ l ++ "_" ++ pad3 index ++ ".jpg", content⟩ imgd,
       2⟩ := by
  show attemptLoop o image_id _ _ imgd 0 3 = _
  rw [show (3 : Nat) = 2 + 1 from rfl, attemptLoop, h0]
  rw [if_neg (by omega : ¬ (2 : Nat) = 0)]
  rw [show (2 : Nat) = 1 + 1 from rfl, attemptLoop, h1]
  rw [if_neg (by omega : ¬ (1 : Nat) = 0)]
  rw [show (1 : Nat) = 0 + 1 from rfl, attemptLoop, h2]

/-- Witness for `download_image_retry_two_sleeps` at a concrete oracle that
fails twice then succeeds. -/
theorem download_image_retry_two_sleeps_witness :
    download_image (fun n => if n == 2 then some [7] else none) "X" "out" 1 "t" "d" "l" [] 3 =
      ⟨true, some ("out" ++ "/" ++ ("t" ++ "_" ++ "d" ++ "_" ++ "l" ++ "_" ++ pad3 1 ++ ".jpg")),
       dinsert "X" ⟨"t" ++ "_" ++ "d" ++ "_" ++ "l" ++ "_" ++ pad3 1 ++ ".jpg", [7]⟩ [], 2⟩ :=
  download_image_retry_two_sleeps (fun n => if n == 2 then some [7] else none)
    "X" "out" 1 "t" "d" "l" [] [7] rfl rfl rfl

/-- C7: fetch worker result contract — `download_image` is a total function
(no exception escapes it); it succeeds exactly when some of the
`retry_count` attempts succeeds, returning `(true, some local_path)` then,
and returns `(false, none)` after all attempts fail. -/
theorem download_image_contract (o : Nat → Option Bytes) (image_id output_dir : String)
    (index : Nat) (t d l : String) (imgd : List (String × ImageInfo)) (rc : Nat) :
    ((download_image o image_id output_dir index t d l imgd rc).success = true ↔
      ∃ a, a < rc ∧ (o a).isSome = true)
    ∧ ((download_image o image_id output_dir index t d l imgd rc).success = true →
        (download_image o image_id output_dir index t d l imgd rc).path =
          some (output_dir ++ "/" ++
            (t ++ "_" ++ d ++ "_" ++ l ++ "_" ++ pad3 index ++ ".jpg")))
    ∧ ((download_image o image_id output_dir index t d l imgd rc).success = false →
        (download_image o image_id output_dir index t d l imgd rc).path = none) := by
  refine ⟨?_, ?_, ?_⟩
  · rw [download_image_success]
    unfold fetchSucceeds
    rw [anySuccessFrom_iff o rc 0]
    simp
  · intro hs
    exact ((attemptLoop_cases o image_id _ _ imgd rc 0).1 hs).1
  · intro hf
    exact ((attemptLoop_cases o image_id _ _ imgd rc 0).2 hf).1

/-- Witness for `download_image_contract` at a concrete always-failing
oracle and a concrete succeeding one. -/
theorem download_image_contract_witness :
    (((download_image (fun _ => none) "X" "out" 1 "t" "d" "l" [] 3).success = true ↔
        ∃ a, a < 3 ∧ ((fun (_ : Nat) => (none : Option Bytes)) a).isSome = true)
      ∧ ((download_image (fun _ => none) "X" "out" 1 "t" "d" "l" [] 3).success = true →
          (download_image (fun _ => none) "X" "out" 1 "t" "d" "l" [] 3).path =
            some ("out" ++ "/" ++
              ("t" ++ "_" ++ "d" ++ "_" ++ "l" ++ "_" ++ pad3 1 ++ ".jpg")))
      ∧ ((download_image (fun _ => none) "X" "out" 1 "t" "d" "l" [] 3).success = false →
          (download_image (fun _ => none) "X" "out" 1 "t" "d" "l" [] 3).path = none)) :=
  download_image_contract (fun _ => none) "X" "out" 1 "t" "d" "l" [] 3

/-! ## Position-index theorems (C3) -/

theorem buildPosMap_dget (id : String) :
    ∀ (ids : List String) (i : Nat) (m : List (String × Nat)),
      dget id (buildPosMap ids i m) =
        match lastIdx id ids with
        | some n => some (i + (n + 1))
        | none => dget id m := by
  intro ids
  induction ids with
  | nil => intro i m; simp [buildPosMap, lastIdx]
  | cons x rest ih =>
    intro i m
    simp only [buildPosMap, lastIdx]
    rw [ih (i + 1) (dinsert x (i + 1) m)]
    cases h : lastIdx id rest with
    | some n =>
      simp only []
      congr 1
      omega
    | none =>
      simp only []
      rw [dget_dinsert]
      by_cases h2 : x = id
      · subst h2
        simp
      · rw [if_neg (fun h3 => h2 h3.symm), if_neg h2]

/-- C3 counterexample: for the duplicated sequence `["a","b","a"]` the
position mapping records ordinal 3 for `"a"` — the LAST occurrence's
ordinal — not ordinal 1 of the first occurrence as the claim states. -/
theorem id_position_first_occurrence_cex :
    dget "a" (create_id_position_mapping ["a", "b", "a"]) = some 3 ∧
      ¬ dget "a" (create_id_position_mapping ["a", "b", "a"]) = some 1 := by
  decide

/-- C3 amended: `create_id_position_mapping` maps each identifier occurring
in the sequence to 1 plus the index of its LAST occurrence (later
duplicates overwrite earlier positions under the same key), and maps
nothing else. -/
theorem id_position_last_occurrence (ids : List String) (id : String) :
    dget id (create_id_position_mapping ids) =
      Option.map (fun n => n + 1) (lastIdx id ids) := by
  unfold create_id_position_mapping
  rw [buildPosMap_dget id ids 0 []]
  cases h : lastIdx id ids <;> simp [dget]

/-! ## Archive packager theorems (C9, C10) -/

/-- C9: archive correctness — with `completed = [("id1","a.jpg"),
("id2","b.jpg")]` and matching `retrieved` entries the archive holds
exactly the two entries `a.jpg` and `b.jpg` with the stored bytes, and an
orphan `completed` entry absent from `retrieved` is silently skipped,
leaving only the remaining entry. -/
theorem create_download_zip_scenario (d1 d2 : Bytes) (meta : Metadata)
    (posmap : List (String × Nat)) :
    create_download_zip true
        { completed := [("id1", "a.jpg"), ("id2", "b.jpg")], failed := [],
          metadata := meta, id_position_map := posmap,
          image_data := [("id1", ⟨"a.jpg", d1⟩), ("id2", ⟨"b.jpg", d2⟩)] } =
      [("a.jpg", d1), ("b.jpg", d2)]
    ∧ create_download_zip true
        { completed := [("id1", "a.jpg"), ("id2", "b.jpg")], failed := [],
          metadata := meta, id_position_map := posmap,
          image_data := [("id2", ⟨"b.jpg", d2⟩)] } =
      [("b.jpg", d2)] := by
  constructor <;> rfl

/-- C10: with `include_completed_only = false` (the source's default for
the flag) the archive has zero entries whatever the progress record holds —
only the `true` branch writes entries. -/
theorem create_download_zip_default_empty (p : DownloadProgress) :
    create_download_zip false p = [] := rfl

/-! ## Further fetch-worker lemmas -/

theorem download_image_imgd_of_success (o : Nat → Option Bytes) (image_id output_dir : String)
    (index : Nat) (t d l : String) (imgd : List (String × ImageInfo)) (rc : Nat)
    (hs : (download_image o image_id output_dir index t d l imgd rc).success = true) :
    ∃ c, (download_image o image_id output_dir index t d l imgd rc).image_data =
      dinsert image_id ⟨t ++ "_" ++ d ++ "_" ++ l ++ "_" ++ pad3 index ++ ".jpg", c⟩ imgd :=
  ((attemptLoop_cases o image_id _ _ imgd rc 0).1 hs).2

theorem download_image_imgd_of_failure (o : Nat → Option Bytes) (image_id output_dir : String)
    (index : Nat) (t d l : String) (imgd : List (String × ImageInfo)) (rc : Nat)
    (hf : (download_image o image_id output_dir index t d l imgd rc).success = false) :
    (download_image o image_id output_dir index t d l imgd rc).image_data = imgd :=
  ((attemptLoop_cases o image_id _ _ imgd rc 0).2 hf).2

theorem download_image_imgd_frame (o : Nat → Option Bytes) (image_id output_dir : String)
    (index : Nat) (t d l : String) (imgd : List (String × ImageInfo)) (rc : Nat)
    (k : String) (hk : k ≠ image_id) :
    dget k (download_image o image_id output_dir index t d l imgd rc).image_data =
      dget k imgd := by
  cases hs : (download_image o image_id output_dir index t d l imgd rc).success with
  | false => rw [download_image_imgd_of_failure o image_id output_dir index t d l imgd rc hs]
  | true =>
    obtain ⟨c, hc⟩ := download_image_imgd_of_success o image_id output_dir index t d l imgd rc hs
    rw [hc, dget_dinsert, if_neg hk]

/-! ## Orchestrator loop lemmas -/

theorem downloadLoop_attempted_noPause (fetch : Nat → Nat → Option Bytes)
    (output_dir t d l : String) (posmap : List (String × Nat)) :
    ∀ (items : List String) (i : Nat) (succ : List (String × String)) (fl : List String)
      (imgd : List (String × ImageInfo)),
      (downloadLoop fetch (fun _ => false) output_dir t d l posmap i items succ fl imgd).attempted
        = items := by
  intro items
  induction items with
  | nil => intro i succ fl imgd; rfl
  | cons id rest ih =>
    intro i succ fl imgd
    simp only [downloadLoop, Bool.false_eq_true, if_false]
    rw [ih]

theorem downloadLoop_failed_noPause (fetch : Nat → Nat → Option Bytes)
    (output_dir t d l : String) (posmap : List (String × Nat)) :
    ∀ (items : List String) (i : Nat) (succ : List (String × String)) (fl : List String)
      (imgd : List (String × ImageInfo)),
      (downloadLoop fetch (fun _ => false) output_dir t d l posmap i items succ fl imgd).failed
        = fl ++ runFailed fetch i items := by
  intro items
  induction items with
  | nil => intro i succ fl imgd; simp [downloadLoop, runFailed]
  | cons id rest ih =>
    intro i succ fl imgd
    simp only [downloadLoop, runFailed, Bool.false_eq_true, if_false]
    rw [download_image_success]
    cases h : fetchSucceeds (fetch i) 3 with
    | true => simp only [if_pos rfl]; rw [ih]; simp
    | false =>
      simp only [Bool.false_eq_true, if_false]
      rw [ih]; simp

theorem downloadLoop_image_data_frame (fetch : Nat → Nat → Option Bytes)
    (pauseRead : Nat → Bool) (output_dir t d l : String) (posmap : List (String × Nat)) :
    ∀ (items : List String) (i : Nat) (succ : List (String × String)) (fl : List String)
      (imgd : List (String × ImageInfo)) (k : String), k ∉ items →
      dget k (downloadLoop fetch pauseRead output_dir t d l posmap i items succ fl imgd).image_data
        = dget k imgd := by
  intro items
  induction items with
  | nil => intro i succ fl imgd k _; rfl
  | cons id rest ih =>
    intro i succ fl imgd k hk
    have hkid : k ≠ id := fun h => hk (h ▸ List.mem_cons_self id rest)
    have hkrest : k ∉ rest := fun h => hk (List.mem_cons_of_mem id h)
    by_cases hp : pauseRead i = true
    · simp only [downloadLoop, hp, if_true]
    · have hp2 : pauseRead i = false := by revert hp; cases pauseRead i <;> simp
      simp only [downloadLoop, hp2, Bool.false_eq_true, if_false]
      rw [ih _ _ _ _ _ hkrest]
      exact download_image_imgd_frame (fetch i) id output_dir _ t d l imgd 3 k hkid

theorem enumFrom_snd_mem {α : Type} :
    ∀ (l : List α) (n : Nat) (p : Nat × α), p ∈ List.enumFrom n l → p.2 ∈ l := by
  intro l
  induction l with
  | nil => intro n p h; simp [List.enumFrom] at h
  | cons x rest ih =>
    intro n p h
    rw [List.enumFrom] at h
    rcases List.mem_cons.mp h with h1 | h2
    · subst h1; exact List.mem_cons_self x rest
    · exact List.mem_cons_of_mem x (ih (n + 1) p h2)

theorem downloadLoop_invariant (fetch : Nat → Nat → Option Bytes) (pauseRead : Nat → Bool)
    (output_dir t d l : String) (posmap : List (String × Nat)) :
    ∀ (items : List String) (i : Nat) (succ : List (String × String)) (fl : List String)
      (imgd : List (String × ImageInfo)),
      items.Nodup →
      (∀ pr ∈ succ, (dget pr.1 imgd).isSome = true) →
      (∀ id ∈ succ.map Prod.fst, id ∉ fl) →
      (∀ id ∈ items, id ∉ succ.map Prod.fst) →
      (∀ p ∈ items.enumFrom i, p.2 ∈ fl → fetchSucceeds (fetch p.1) 3 = false) →
      (∀ pr ∈ (downloadLoop fetch pauseRead output_dir t d l posmap i items succ fl imgd).completed,
        (dget pr.1
          (downloadLoop fetch pauseRead output_dir t d l posmap i items succ fl imgd).image_data).isSome
            = true)
      ∧ (∀ id ∈
          (downloadLoop fetch pauseRead output_dir t d l posmap i items succ fl imgd).completed.map
            Prod.fst,
          id ∉ (downloadLoop fetch pauseRead output_dir t d l posmap i items succ fl imgd).failed) := by
  intro items
  induction items with
  | nil =>
    intro i succ fl imgd _ hA hB _ _
    simp only [downloadLoop]
    exact ⟨hA, hB⟩
  | cons x rest ih =>
    intro i succ fl imgd hNodup hA hB hD hE
    obtain ⟨hxrest, hrestnd⟩ := List.nodup_cons.mp hNodup
    by_cases hp : pauseRead i = true
    · simp only [downloadLoop, hp, if_true]
      exact ⟨hA, hB⟩
    · have hp2 : pauseRead i = false := by revert hp; cases pauseRead i <;> simp
      simp only [downloadLoop, hp2, Bool.false_eq_true, if_false]
      cases hs : (download_image (fetch i) x output_dir ((dget x posmap).getD (i + 1))
          t d l imgd 3).success with
      | true =>
        simp only [hs, eq_self_iff_true, if_true]
        obtain ⟨c, hc⟩ := download_image_imgd_of_success (fetch i) x output_dir
          ((dget x posmap).getD (i + 1)) t d l imgd 3 hs
        rw [hc]
        have hxfl : x ∉ fl := by
          intro hfl
          have hmem : ((i, x) : Nat × String) ∈ (x :: rest).enumFrom i := by
            rw [List.enumFrom]; exact List.mem_cons_self _ _
          have h2 := hE (i, x) hmem hfl
          rw [download_image_success] at hs
          rw [hs] at h2
          exact Bool.true_eq_false.mp h2
        apply ih (i + 1) _ fl _ hrestnd
        · intro pr hpr
          rcases List.mem_append.mp hpr with hold | hnew
          · exact dget_dinsert_isSome pr.1 x _ imgd (hA pr hold)
          · rcases List.mem_singleton.mp hnew with rfl
            simp [dget_dinsert]
        · intro id2 hid2
          rw [List.map_append, List.map_singleton] at hid2
          rcases List.mem_append.mp hid2 with hold | hnew
          · exact hB id2 hold
          · rcases List.mem_singleton.mp hnew with rfl
            exact hxfl
        · intro id2 hid2
          rw [List.map_append, List.map_singleton, List.mem_append]
          rintro (hold | hnew)
          · exact hD id2 (List.mem_cons_of_mem x hid2) hold
          · rcases List.mem_singleton.mp hnew with rfl
            exact hxrest hid2
        · intro p hpmem hpfl
          apply hE p _ hpfl
          rw [List.enumFrom]
          exact List.mem_cons_of_mem _ hpmem
      | false =>
        simp only [hs, Bool.false_eq_true, if_false]
        rw [download_image_imgd_of_failure (fetch i) x output_dir
          ((dget x posmap).getD (i + 1)) t d l imgd 3 hs]
        apply ih (i + 1) succ (fl ++ [x]) imgd hrestnd hA
        · intro id2 hid2
          rw [List.mem_append, List.mem_singleton]
          rintro (hold | heq)
          · exact hB id2 hid2 hold
          · exact hD x (List.mem_cons_self x rest) (heq ▸ hid2)
        · intro id2 hid2
          exact hD id2 (List.mem_cons_of_mem x hid2)
        · intro p hpmem hpfl
          rcases List.mem_append.mp hpfl with hold | hnew
          · apply hE p _ hold
            rw [List.enumFrom]
            exact List.mem_cons_of_mem _ hpmem
          · rcases List.mem_singleton.mp hnew with heq
            exfalso
            apply hxrest
            rw [← heq]
            exact enumFrom_snd_mem rest (i + 1) p hpmem

/-! ## Resume behaviour (C1) -/

/-- C1 counterexample: in the resume scenario (10 identifiers, 5 completed,
2 failed) the computed pending list has the five identifiers not in
`completed` — the two failed ones included — not just the three in neither
set, and a fresh run attempts all five. -/
theorem resume_pending_cex :
    pending_ids (resumeState "i1" "i2" "i3" "i4" "i5" "i6" "i7" "i8" "i9" "i10"
        "p1" "p2" "p3" "p4" "p5" ⟨"t", "d", "l", 10⟩ [] [] "" 0 true) =
      ["i6", "i7", "i8", "i9", "i10"]
    ∧ ¬ pending_ids (resumeState "i1" "i2" "i3" "i4" "i5" "i6" "i7" "i8" "i9" "i10"
        "p1" "p2" "p3" "p4" "p5" ⟨"t", "d", "l", 10⟩ [] [] "" 0 true) =
      ["i8", "i9", "i10"]
    ∧ (download_images (fun _ _ => some [0]) (fun _ => false) "out"
        (resumeState "i1" "i2" "i3" "i4" "i5" "i6" "i7" "i8" "i9" "i10"
          "p1" "p2" "p3" "p4" "p5" ⟨"t", "d", "l", 10⟩ [] [] "" 0 true)).2 =
      ["i6", "i7", "i8", "i9", "i10"] := by
  decide

/-- C1 amended: in the resume scenario a fresh, unpaused run computes a
pending list of exactly the five identifiers not in `completed` — the three
in neither set plus the two failed ones — attempts to fetch exactly those
five in extraction order, and the resulting `failed` list keeps its old
entries and appends those of the five that fail again (a previously failed
identifier that now succeeds nevertheless stays in `failed`). -/
theorem download_images_resume (fetch : Nat → Nat → Option Bytes) (output_dir : String)
    (x1 x2 x3 x4 x5 x6 x7 x8 x9 x10 q1 q2 q3 q4 q5 : String)
    (meta : Metadata) (posmap : List (String × Nat)) (imgd : List (String × ImageInfo))
    (auth : String) (delay : Nat) (started : Bool)
    (h6 : x6 ∉ [x1, x2, x3, x4, x5]) (h7 : x7 ∉ [x1, x2, x3, x4, x5])
    (h8 : x8 ∉ [x1, x2, x3, x4, x5]) (h9 : x9 ∉ [x1, x2, x3, x4, x5])
    (h10 : x10 ∉ [x1, x2, x3, x4, x5]) :
    pending_ids (resumeState x1 x2 x3 x4 x5 x6 x7 x8 x9 x10 q1 q2 q3 q4 q5
        meta posmap imgd auth delay started) = [x6, x7, x8, x9, x10]
    ∧ (download_images fetch (fun _ => false) output_dir
        (resumeState x1 x2 x3 x4 x5 x6 x7 x8 x9 x10 q1 q2 q3 q4 q5
          meta posmap imgd auth delay started)).2 = [x6, x7, x8, x9, x10]
    ∧ (download_images fetch (fun _ => false) output_dir
        (resumeState x1 x2 x3 x4 x5 x6 x7 x8 x9 x10 q1 q2 q3 q4 q5
          meta posmap imgd auth delay started)).1.download_progress.failed =
      [x6, x7] ++ runFailed fetch 0 [x6, x7, x8, x9, x10] := by
  have hpend : pending_ids (resumeState x1 x2 x3 x4 x5 x6 x7 x8 x9 x10 q1 q2 q3 q4 q5
      meta posmap imgd auth delay started) = [x6, x7, x8, x9, x10] := by
    simp only [List.mem_cons, List.not_mem_nil, or_false, not_or] at h6 h7 h8 h9 h10
    simp [pending_ids, completed_ids, resumeState, h6, h7, h8, h9, h10]
  refine ⟨hpend, ?_, ?_⟩
  · simp only [download_images, hpend]
    simp [resumeState, downloadLoop_attempted_noPause]
  · simp only [download_images, hpend]
    simp [resumeState, downloadLoop_failed_noPause]

/-- Witness for `download_images_resume` at concrete identifiers and an
all-succeeding oracle. -/
theorem download_images_resume_witness :
    pending_ids (resumeState "i1" "i2" "i3" "i4" "i5" "i6" "i7" "i8" "i9" "i10"
        "p1" "p2" "p3" "p4" "p5" ⟨"t", "d", "l", 10⟩ [] [] "" 0 true) =
      ["i6", "i7", "i8", "i9", "i10"]
    ∧ (download_images (fun _ _ => some [1]) (fun _ => false) "out"
        (resumeState "i1" "i2" "i3" "i4" "i5" "i6" "i7" "i8" "i9" "i10"
          "p1" "p2" "p3" "p4" "p5" ⟨"t", "d", "l", 10⟩ [] [] "" 0 true)).2 =
      ["i6", "i7", "i8", "i9", "i10"]
    ∧ (download_images (fun _ _ => some [1]) (fun _ => false) "out"
        (resumeState "i1" "i2" "i3" "i4" "i5" "i6" "i7" "i8" "i9" "i10"
          "p1" "p2" "p3" "p4" "p5" ⟨"t", "d", "l", 10⟩ [] [] "" 0 true)).1.download_progress.failed =
      ["i6", "i7"] ++ runFailed (fun _ _ => some [1]) 0 ["i6", "i7", "i8", "i9", "i10"] :=
  download_images_resume (fun _ _ => some [1]) "out" "i1" "i2" "i3" "i4" "i5" "i6" "i7"
    "i8" "i9" "i10" "p1" "p2" "p3" "p4" "p5" ⟨"t", "d", "l", 10⟩ [] [] "" 0 true
    (by decide) (by decide) (by decide) (by decide) (by decide)

/-! ## Orchestrator invariant (C2) -/

/-- C2 counterexample: from the reachable state in which identifier `"A"`
failed its first run (an invariant-satisfying state), a second run whose
fetch succeeds leaves `"A"` in both `completed` and `failed`, breaking the
disjointness half of the invariant. -/
theorem invariant_disjoint_cex :
    (∀ idv ∈ (download_images (fun _ _ => none) (fun _ => false) "out"
        singleState).1.download_progress.completed.map Prod.fst,
      idv ∉ (download_images (fun _ _ => none) (fun _ => false) "out"
        singleState).1.download_progress.failed)
    ∧ (download_images (fun _ _ => none) (fun _ => false) "out"
        singleState).1.download_progress.failed = ["A"]
    ∧ (download_images (fun _ _ => some [5]) (fun _ => false) "out"
        (download_images (fun _ _ => none) (fun _ => false) "out"
          singleState).1).1.download_progress.completed.map Prod.fst = ["A"]
    ∧ "A" ∈ (download_images (fun _ _ => some [5]) (fun _ => false) "out"
        (download_images (fun _ _ => none) (fun _ => false) "out"
          singleState).1).1.download_progress.failed := by
  decide

/-- C2 amended: for a session whose extracted identifiers are duplicate-free
and whose progress satisfies the invariant (disjoint `completed`/`failed`,
every completed identifier covered by `retrieved`), any run — paused or
complete — preserves the invariant PROVIDED no identifier currently in
`failed` is successfully fetched during the run; coverage of `completed` by
`retrieved` is preserved in any case under these hypotheses. -/
theorem download_images_invariant (fetch : Nat → Nat → Option Bytes) (pauseRead : Nat → Bool)
    (output_dir : String) (st : SessionState)
    (hnodup : st.extracted_ids.Nodup)
    (hcov : ∀ pr ∈ st.download_progress.completed,
      (dget pr.1 st.download_progress.image_data).isSome = true)
    (hdisj : ∀ idv ∈ st.download_progress.completed.map Prod.fst,
      idv ∉ st.download_progress.failed)
    (hnorefail : ∀ p ∈ (pending_ids st).enumFrom 0,
      p.2 ∈ st.download_progress.failed → fetchSucceeds (fetch p.1) 3 = false) :
    (∀ pr ∈ (download_images fetch pauseRead output_dir st).1.download_progress.completed,
      (dget pr.1
        (download_images fetch pauseRead output_dir st).1.download_progress.image_data).isSome
          = true)
    ∧ (∀ idv ∈
        (download_images fetch pauseRead output_dir st).1.download_progress.completed.map Prod.fst,
        idv ∉ (download_images fetch pauseRead output_dir st).1.download_progress.failed) := by
  by_cases h0 : (pending_ids st).length = 0
  · simp only [download_images, h0, eq_self_iff_true, if_true]
    exact ⟨hcov, hdisj⟩
  · by_cases hpz : st.download_paused = true
    · simp only [download_images, h0, if_false, hpz, if_true]
      exact ⟨hcov, hdisj⟩
    · have hpz2 : st.download_paused = false := by revert hpz; cases st.download_paused <;> simp
      simp only [download_images, h0, if_false, hpz2, Bool.false_eq_true]
      have hfilter : ∀ idv ∈ pending_ids st, idv ∉ st.download_progress.completed.map Prod.fst := by
        intro idv hidv
        exact of_decide_eq_true (List.mem_filter.mp hidv).2
      exact downloadLoop_invariant fetch pauseRead output_dir _ _ _
        st.download_progress.id_position_map (pending_ids st) 0
        st.download_progress.completed st.download_progress.failed
        st.download_progress.image_data
        (hnodup.filter _) hcov hdisj hfilter hnorefail

/-- Witness for `download_images_invariant` at `mixedState` with an
always-failing oracle (so the failed identifier does not succeed). -/
theorem download_images_invariant_witness :
    (∀ pr ∈ (download_images (fun _ _ => none) (fun _ => false) "out"
        mixedState).1.download_progress.completed,
      (dget pr.1 (download_images (fun _ _ => none) (fun _ => false) "out"
        mixedState).1.download_progress.image_data).isSome = true)
    ∧ (∀ idv ∈ (download_images (fun _ _ => none) (fun _ => false) "out"
        mixedState).1.download_progress.completed.map Prod.fst,
        idv ∉ (download_images (fun _ _ => none) (fun _ => false) "out"
          mixedState).1.download_progress.failed) :=
  download_images_invariant (fun _ _ => none) (fun _ => false) "out" mixedState
    (by decide) (by decide) (by decide) (by decide)

/-! ## Stability of retrieved entries (C5) -/

/-- C5 counterexample: with the duplicated extracted sequence `["X","X"]`
and both fetches succeeding with different payloads, the run fetches `"X"`
twice, records it in `completed` twice, and OVERWRITES the `retrieved`
entry written at the first successful fetch. -/
theorem image_data_rewrite_cex :
    (download_images (fun i _ => some [i + 1]) (fun _ => false) "out"
        dupState).1.download_progress.completed.map Prod.fst = ["X", "X"]
    ∧ dget "X" (download_images (fun i _ => some [i + 1]) (fun _ => false) "out"
        dupState).1.download_progress.image_data = some ⟨"t_d_l_002.jpg", [2]⟩
    ∧ ¬ dget "X" (download_images (fun i _ => some [i + 1]) (fun _ => false) "out"
        dupState).1.download_progress.image_data = some ⟨"t_d_l_002.jpg", [1]⟩ := by
  decide

/-- C5 amended: once an identifier is recorded in `completed`, no later
orchestrator run mutates its `retrieved` entry (the identifier is excluded
from the pending list, so nothing writes under its key); within a single
run over a sequence that repeats an identifier, however, each successful
fetch of an occurrence rewrites the entry. -/
theorem image_data_stable_once_completed (fetch : Nat → Nat → Option Bytes)
    (pauseRead : Nat → Bool) (output_dir : String) (st : SessionState) (idv : String)
    (h : idv ∈ completed_ids st) :
    dget idv (download_images fetch pauseRead output_dir st).1.download_progress.image_data
      = dget idv st.download_progress.image_data := by
  by_cases h0 : (pending_ids st).length = 0
  · simp only [download_images, h0, eq_self_iff_true, if_true]
  · by_cases hpz : st.download_paused = true
    · simp only [download_images, h0, if_false, hpz, if_true]
    · have hpz2 : st.download_paused = false := by revert hpz; cases st.download_paused <;> simp
      simp only [download_images, h0, if_false, hpz2, Bool.false_eq_true]
      have hnp : idv ∉ pending_ids st := by
        intro hmem
        exact of_decide_eq_true (List.mem_filter.mp hmem).2 h
      exact downloadLoop_image_data_frame fetch pauseRead output_dir _ _ _
        st.download_progress.id_position_map (pending_ids st) 0
        st.download_progress.completed st.download_progress.failed
        st.download_progress.image_data idv hnp

/-- Witness for `image_data_stable_once_completed`: the stored bytes of the
completed identifier of `mixedState` survive a further run untouched. -/
theorem image_data_stable_once_completed_witness :
    dget "A" (download_images (fun _ _ => some [3]) (fun _ => false) "out"
        mixedState).1.download_progress.image_data
      = dget "A" mixedState.download_progress.image_data :=
  image_data_stable_once_completed (fun _ _ => some [3]) (fun _ => false) "out"
    mixedState "A" (by decide)

/-! ## Retry-failed transition (C8) -/

/-- C8: with non-empty `failed`, `retry_failed_downloads` clears `failed`,
leaves `completed`, `retrieved` and the extracted sequence untouched,
performs no fetch (it is a pure state transition), and every formerly
failed identifier that is extracted and not completed is in the pending
list of the next run. -/
theorem retry_failed_downloads_spec (st : SessionState)
    (h : st.download_progress.failed ≠ []) :
    (retry_failed_downloads st).download_progress.failed = []
    ∧ (retry_failed_downloads st).download_progress.completed = st.download_progress.completed
    ∧ (retry_failed_downloads st).download_progress.image_data = st.download_progress.image_data
    ∧ (retry_failed_downloads st).extracted_ids = st.extracted_ids
    ∧ ∀ idv ∈ st.download_progress.failed, idv ∈ st.extracted_ids →
        idv ∉ completed_ids st → idv ∈ pending_ids (retry_failed_downloads st) := by
  unfold retry_failed_downloads
  rw [if_neg h]
  refine ⟨rfl, rfl, rfl, rfl, ?_⟩
  intro idv _ hin hnc
  exact List.mem_filter.mpr ⟨hin, decide_eq_true hnc⟩

/-- Witness for `retry_failed_downloads_spec` at `failedState`. -/
theorem retry_failed_downloads_spec_witness :
    (retry_failed_downloads failedState).download_progress.failed = []
    ∧ (retry_failed_downloads failedState).download_progress.completed =
        failedState.download_progress.completed
    ∧ (retry_failed_downloads failedState).download_progress.image_data =
        failedState.download_progress.image_data
    ∧ (retry_failed_downloads failedState).extracted_ids = failedState.extracted_ids
    ∧ ∀ idv ∈ failedState.download_progress.failed, idv ∈ failedState.extracted_ids →
        idv ∉ completed_ids failedState → idv ∈ pending_ids (retry_failed_downloads failedState) :=
  retry_failed_downloads_spec failedState (by decide)

/-! ## Extraction failure behaviour (C4) -/

theorem searchIds_ok_iff :
    ∀ (urls : List Json) (ids : List String), searchIds urls = .ok ids →
      (ids = [] ↔ ∀ u ∈ urls, ∀ s, u = Json.str s → extract_id_from_url s = none) := by
  intro urls
  induction urls with
  | nil =>
    intro ids h
    simp only [searchIds, Except.ok.injEq] at h
    subst h
    simp
  | cons u rest ih =>
    intro ids h
    cases u with
    | str s =>
      simp only [searchIds] at h
      cases hr : searchIds rest with
      | error e => rw [hr] at h; simp [Except.map] at h
      | ok ids0 =>
        rw [hr] at h
        simp only [Except.map, Except.ok.injEq] at h
        have hrest := ih ids0 hr
        cases he : extract_id_from_url s with
        | some v =>
          rw [he] at h
          subst h
          constructor
          · intro habs; cases habs
          · intro hall
            have := hall (Json.str s) (List.mem_cons_self _ _) s rfl
            rw [he] at this
            cases this
        | none =>
          rw [he] at h
          subst h
          rw [hrest]
          constructor
          · intro hall u2 hu2 s2 hs2
            rcases List.mem_cons.mp hu2 with heq | hmem
            · rw [heq] at hs2
              injection hs2 with hs3
              rw [← hs3]
              exact he
            · exact hall u2 hmem s2 hs2
          · intro hall u2 hu2 s2 hs2
            exact hall u2 (List.mem_cons_of_mem _ hu2) s2 hs2
    | num n => simp [searchIds] at h
    | boolean b => simp [searchIds] at h
    | null => simp [searchIds] at h
    | arr items => simp [searchIds] at h
    | obj fields => simp [searchIds] at h

/-- C4 counterexample: on empty input (no JSON parse, zero regex matches)
`extract_ids_from_urls` does NOT fail — it returns the empty identifier
sequence normally — whereas the spec's `ExtractionError` contract
(`extract_ids_spec`) demands an error there. -/
theorem extraction_error_cex :
    extract_ids_from_urls (.plainText []) = .ok []
    ∧ extract_ids_spec (.plainText []) =
        .error "ExtractionError: no identifiers found in input" :=
  ⟨rfl, rfl⟩

/-- C4 amended: `extract_ids_from_urls` raises no `ExtractionError`; when
it returns (as it does on every input whose candidate URLs are strings) it
returns the ordered identifier sequence, which is EMPTY exactly when the
input is empty or yields zero identifier matches — the caller receives an
empty list, not an error, and no session state is touched (the function is
pure in the engine model). -/
theorem extract_ids_empty_iff_no_match (inp : ExtractInput) (urls : List Json)
    (ids : List String) (hc : candidateUrls inp = .ok urls)
    (hok : extract_ids_from_urls inp = .ok ids) :
    ids = [] ↔ ∀ u ∈ urls, ∀ s, u = Json.str s → extract_id_from_url s = none := by
  unfold extract_ids_from_urls at hok
  rw [hc] at hok
  exact searchIds_ok_iff urls ids hok

/-- Witness for `extract_ids_empty_iff_no_match` at a one-URL input with a
match: the returned sequence `["AB"]` is nonempty and indeed some candidate
matches. -/
theorem extract_ids_empty_iff_no_match_witness :
    (["AB"] = ([] : List String)) ↔
      ∀ u ∈ [Json.str "x/3:1:AB/y"], ∀ s, u = Json.str s →
        extract_id_from_url s = none :=
  extract_ids_empty_iff_no_match (.plainText ["x/3:1:AB/y"]) [Json.str "x/3:1:AB/y"]
    ["AB"] rfl rfl

end ImageCrawl
